import Mathlib

/-!
Verification of the Battleship game-state engine (server/app.py).

The engine is embedded shallowly:
* the board is a total function `Nat → Nat → Char` (the Python code uses a
  12×12 list of lists of one-character strings, and every access performed by
  the engine is in bounds, so pointwise update is a faithful model);
* the `players` dict is an insertion-ordered association list, as Python
  dicts are insertion ordered;
* HTTP `abort(...)` calls become `Except` errors; the server persists the
  game only on the success path, which `movePersisted` mirrors;
* the unbounded rejection-sampling loop of `_place_ships_randomly` is
  modelled by threading an explicit finite list of random draws: running the
  loop on every finite prefix of an infinite draw sequence and never
  obtaining a result is exactly non-termination of the source loop.
-/

/-- Board side, `BOARD_SIZE = 12` in app.py. -/
def BOARD_SIZE : Nat := 12

/-- The catalog `SHIP_SIZES = {"A": 5, "B": 4, "S": 3, "D": 3, "P": 2}` in
Python dict insertion order. -/
def SHIP_SIZES : List (Char × Nat) := [('A', 5), ('B', 4), ('S', 3), ('D', 3), ('P', 2)]

/-- The `ship_names` table materialised inside `make_move`. -/
def SHIP_NAMES : List (Char × String) :=
  [('A', "Aircraft Carrier"), ('B', "Battleship"), ('S', "Submarine"),
   ('D', "Destroyer"), ('P', "Patrol Boat")]

/-- The size lookup `SHIP_SIZES.get(letter, 0)` from app.py. -/
def shipSize (letter : Char) : Nat := (SHIP_SIZES.lookup letter).getD 0

/-- The name lookup `ship_names.get(letter, "Unknown Ship")` from app.py. -/
def shipName (letter : Char) : String := (SHIP_NAMES.lookup letter).getD "Unknown Ship"

/-- A board: cell `(row, col)` holds `'~'` (water) or a ship letter.
Models the Python 12×12 list of lists of one-character strings; all engine
accesses are in bounds, so a total function is a faithful model. -/
def Board : Type := Nat → Nat → Char

/-- Models `_empty_board()`: every cell is water. -/
def emptyBoard : Board := fun _ _ => '~'

/-- The in-bounds list update `board[r][c] = letter`, as pointwise update. -/
def setCell (b : Board) (r c : Nat) (letter : Char) : Board :=
  fun r' c' => if r' = r ∧ c' = c then letter else b r' c'

/-- The `for x, y in cells: board[x][y] = ship` loop of `_place_ships_randomly`. -/
def writeCells (b : Board) (cells : List (Nat × Nat)) (letter : Char) : Board :=
  cells.foldl (fun bb p => setCell bb p.1 p.2 letter) b

/-- Python `chr(i)`: a one-character string.  `chr` raises for arguments
outside the Unicode range; the engine only ever calls it on `ord` values of
existing characters, so the out-of-range default (empty string) is never
reached by the modelled code. -/
def pyChr (i : Int) : String :=
  if 0 ≤ i then String.singleton (Char.ofNat i.toNat) else ""

/-- Models `_coord_from_rc(row, col) = chr(ord('A') + col) + str(row + 1)`
at its most general (integer) argument type: `make_move` calls it on values
of the form `int(c[1:]) - 1` and `ord(c[0].upper()) - ord('A')`. -/
def coordFromRCInt (row col : Int) : String :=
  pyChr (65 + col) ++ (row + 1).repr

/-- Specialises `_coord_from_rc` to natural row/col, as used by
`_place_ships_randomly`, `join_game` and `get_state` (which call it on
`range(BOARD_SIZE)` indices). -/
def coordFromRC (row col : Nat) : String :=
  coordFromRCInt (Int.ofNat row) (Int.ofNat col)

/-- The whitespace characters CPython's int() strips from both ends of a
string literal (verified against CPython 3.11: U+0009-U+000D, space, U+0085,
U+00A0, U+1680, U+2000-U+200A, U+2028, U+2029, U+202F, U+205F, U+3000). -/
def pySpace (c : Char) : Bool :=
  (9 ≤ c.toNat && c.toNat ≤ 13) || c.toNat == 32 ||
  c.toNat == 0x85 || c.toNat == 0xA0 || c.toNat == 0x1680 ||
  (0x2000 ≤ c.toNat && c.toNat ≤ 0x200A) ||
  c.toNat == 0x2028 || c.toNat == 0x2029 || c.toNat == 0x202F ||
  c.toNat == 0x205F || c.toNat == 0x3000

/-- The tail of a decimal literal after its first digit: further digits, with
a single underscore allowed between two digits (PEP 515 grouping: no leading,
trailing, or doubled underscore). -/
def pyDigitsVal : List Char → Nat → Option Nat
  | [], acc => some acc
  | ['_'], _ => none
  | '_' :: c :: rest, acc =>
    if c.isDigit then pyDigitsVal rest (acc * 10 + (c.toNat - 48)) else none
  | c :: rest, acc =>
    if c.isDigit then pyDigitsVal rest (acc * 10 + (c.toNat - 48)) else none

/-- A decimal literal's digit part must start with a digit, never with an
underscore. -/
def pyDigitGroups : List Char → Option Nat
  | [] => none
  | c :: rest => if c.isDigit then pyDigitsVal rest (c.toNat - 48) else none

/-- Models Python int(s) on base-10 string literals: whitespace (the CPython
set of `pySpace`) stripped from both ends, one optional sign, then digits
with single underscores between digits (PEP 515); `none` models the
ValueError raised otherwise.  This agrees with CPython on every string over
ASCII digits (checked differentially on 600 short strings); CPython
additionally assigns values to non-ASCII Unicode decimal-digit characters
(category Nd, a table that varies with the Unicode version Python ships),
which stay outside this model — theorems about parse failure therefore
restrict coordinate text to ASCII, where the model is exact. -/
def pyInt (s : String) : Option Int :=
  match ((s.data.dropWhile pySpace).reverse.dropWhile pySpace).reverse with
  | '-' :: rest => (pyDigitGroups rest).map (fun n => -(n : Int))
  | '+' :: rest => (pyDigitGroups rest).map (fun n => (n : Int))
  | cs => (pyDigitGroups cs).map (fun n => (n : Int))

/-- The coordinate translation of `make_move`:
`col = ord(coord[0].upper()) - ord("A")`, `row = int(coord[1:]) - 1`,
with `none` when `int` raises (the `except` branch).  The input string is
nonempty at this point (`not coord` was rejected earlier). -/
def parseCoord (coord : String) : Option (Int × Int) :=
  match coord.data with
  | [] => none
  | ch :: rest =>
    (pyInt (String.mk rest)).map (fun n => (n - 1, (ch.toUpper.toNat : Int) - 65))

/-- Python `str.upper()` (the engine only uppercases ASCII coordinates). -/
def stringUpper (s : String) : String := String.mk (s.data.map Char.toUpper)

/-- One player slot of the `players` dict:
`{"board": …, "hits": […], "misses": […]}`. -/
structure Player where
  board : Board
  hits : List String
  misses : List String

/-- A persisted game.  The `created` uuid field of app.py carries no game
logic and is omitted.  `players` is insertion ordered like a Python dict. -/
structure Game where
  id : String
  players : List (String × Player)
  turn : Option String
  winner : Option String

/-- The generator `next(t for t in game["players"] if t != token)`: the first
key different from `token`, `none` modelling the `StopIteration` case. -/
def firstOtherToken (ps : List (String × Player)) (tok : String) : Option String :=
  (ps.find? (fun p => p.1 != tok)).map Prod.fst

/-- The abort causes of `make_move`, in source order. -/
inductive MoveError where
  | missingTokenOrCoord
  | unknownToken
  | notYourTurn
  | noOpponent
  | invalidCoordinate
  deriving DecidableEq

/-- The JSON body returned by a successful `make_move`. -/
structure MoveResult where
  result : String
  hit : Bool
  sunk : Option Char
  sunk_name : Option String
  deriving DecidableEq

/-- The buggy per-ship hit count of app.py lines 287-291 and 315-318: it
counts entries `c` of the hit list whose rebuilt coordinate string
`_coord_from_rc(int(c[1:]) - 1, ord(c[0].upper()) - ord('A'))` equals the
one-letter ship code.  (Entries of engine-produced hit lists always parse;
`none` models the exception `int` would raise otherwise.) -/
def buggyShipHitCount (hits : List String) (letter : Char) : Nat :=
  (hits.filter (fun c =>
    match c.data with
    | [] => false
    | ch :: rest =>
      match pyInt (String.mk rest) with
      | none => false
      | some n => coordFromRCInt (n - 1) ((ch.toUpper.toNat : Int) - 65) == String.singleton letter)).length

/-- The success path of `make_move` once the opponent slot and the parsed
in-bounds row/col are known: records the shot, computes the (buggy) sunk
report, advances the turn, and runs the (equally buggy) win detection. -/
def moveApply (g : Game) (token coord : String) (opTok : String) (op : Player)
    (row col : Nat) : Game × MoveResult :=
  let cell := op.board row col
  let hit : Bool := cell != '~'
  let upperCoord := stringUpper coord
  let op' : Player :=
    if hit then { op with hits := op.hits ++ [upperCoord] }
    else { op with misses := op.misses ++ [upperCoord] }
  let result := if hit then "hit" else "miss"
  let sunkLetter : Option Char :=
    if hit ∧ buggyShipHitCount op'.hits cell = shipSize cell then some cell else none
  let sunkName : Option String :=
    if hit ∧ buggyShipHitCount op'.hits cell = shipSize cell then some (shipName cell) else none
  let players' := g.players.map (fun q => if q.1 == opTok then (q.1, op') else q)
  let winner' : Option String :=
    if sunkLetter.isSome then
      if SHIP_SIZES.all (fun ls => ! decide (buggyShipHitCount op'.hits ls.1 < ls.2)) then
        some token
      else g.winner
    else g.winner
  ({ g with players := players', turn := some opTok, winner := winner' },
   { result := result, hit := hit, sunk := sunkLetter, sunk_name := sunkName })

/-- Models `make_move` for an existing game: the guard chain of app.py lines
233-267 followed by the success path.  The two `.error .noOpponent` default
branches of the opponent lookup are unreachable for games whose player keys
are distinct (Python dict keys always are). -/
def makeMove (g : Game) (token coord : String) : Except MoveError (Game × MoveResult) :=
  if token = "" ∨ coord = "" then .error .missingTokenOrCoord
  else if (g.players.lookup token).isNone then .error .unknownToken
  else if g.turn ≠ some token then .error .notYourTurn
  else if g.players.length < 2 then .error .noOpponent
  else
    match firstOtherToken g.players token with
    | none => .error .noOpponent
    | some opTok =>
      match g.players.lookup opTok with
      | none => .error .noOpponent
      | some op =>
        match parseCoord coord with
        | none => .error .invalidCoordinate
        | some (row, col) =>
          if 0 ≤ row ∧ row < (BOARD_SIZE : Int) ∧ 0 ≤ col ∧ col < (BOARD_SIZE : Int) then
            .ok (moveApply g token coord opTok op row.toNat col.toNat)
          else .error .invalidCoordinate

/-- The game on disk after a `move` request: app.py calls `_save_game` only
on the success path, so every failure leaves the stored game unchanged. -/
def movePersisted (g : Game) (token coord : String) : Game :=
  match makeMove g token coord with
  | .ok (g', _) => g'
  | .error _ => g

/-- The deduplicated per-ship hit count computed by `get_state` (app.py lines
190-199): the number of board cells carrying `letter` whose coordinate string
is in the hit list.  Because it counts *cells*, it is exactly the spec's
"deduplicated hit count" for that ship type. -/
def stateHitCount (board : Board) (hits : List String) (letter : Char) : Nat :=
  ((List.range BOARD_SIZE).map (fun r =>
     ((List.range BOARD_SIZE).filter (fun c =>
        board r c == letter && hits.contains (coordFromRC r c))).length)).sum

/-- The only failure of `get_state` on an existing game: the uncaught
`StopIteration` raised by `next(t for t in game["players"] if t != token)`
when the game has exactly one player. -/
inductive StateError where
  | stopIteration
  deriving DecidableEq

/-- The JSON assembled by `get_state`. -/
structure StateResponse where
  id : String
  turn : Option String
  players : List (String × (List String × List String))
  private_board : Option Board
  sunk_ships : List (String × List Char)
  winner : Option String

/-- The `sunk_info` loop of `get_state`: for every player, the catalog
letters whose `stateHitCount` against the opponent's board equals the ship
size.  `.error .stopIteration` models the uncaught exception of the
opponent-lookup generator when no other token exists. -/
def sunkInfoLoop (all : List (String × Player)) :
    List (String × Player) → Except StateError (List (String × List Char))
  | [] => .ok []
  | (t, p) :: rest =>
    match firstOtherToken all t with
    | none => .error .stopIteration
    | some opTok =>
      match all.lookup opTok with
      | none => .error .stopIteration
      | some op =>
        match sunkInfoLoop all rest with
        | .error e => .error e
        | .ok tail =>
          .ok ((t, (SHIP_SIZES.filter
                (fun ls => stateHitCount op.board p.hits ls.1 == ls.2)).map Prod.fst) :: tail)

/-- Models `get_state` on an existing game: public hit/miss lists for every player,
the per-player sunk lists, and the caller's own board exactly when the
requester token names a participant. -/
def getState (g : Game) (requesterToken : Option String) :
    Except StateError StateResponse :=
  let publicPlayers := g.players.map (fun q => (q.1, (q.2.hits, q.2.misses)))
  match sunkInfoLoop g.players g.players with
  | .error e => .error e
  | .ok sunkInfo =>
    let privateBoard : Option Board :=
      match requesterToken with
      | none => none
      | some t =>
        if t ≠ "" ∧ (g.players.lookup t).isSome then (g.players.lookup t).map Player.board
        else none
    .ok { id := g.id, turn := g.turn, players := publicPlayers,
          private_board := privateBoard, sunk_ships := sunkInfo, winner := g.winner }

/-- One iteration's random draws inside the `while not placed` loop of
`_place_ships_randomly`: the orientation from `random.choice([True, False])`
and the two raw draws whose reduction modulo the sampled range models
`random.randint` (every in-range value is realisable). -/
structure Attempt where
  horiz : Bool
  rv : Nat
  cv : Nat
  deriving DecidableEq

/-- The candidate cells of one attempt: `randint(0, BOARD_SIZE - 1)` for the
free axis and `randint(0, BOARD_SIZE - size)` for the anchor of the run. -/
def attemptCells (size : Nat) (a : Attempt) : List (Nat × Nat) :=
  if a.horiz then
    (List.range size).map (fun i => (a.rv % BOARD_SIZE, a.cv % (BOARD_SIZE - size + 1) + i))
  else
    (List.range size).map (fun i => (a.rv % (BOARD_SIZE - size + 1) + i, a.cv % BOARD_SIZE))

/-- The `while not placed` loop for one ship: successive attempts are
rejected while any candidate cell is occupied or blocked; an accepted
attempt writes the ship letter and returns the unconsumed draws.  `none`
means the supplied draws were exhausted with the loop still running. -/
def placeOneShip (blocked : List String) (letter : Char) (size : Nat) :
    List Attempt → Board → Option (Board × List Attempt)
  | [], _ => none
  | a :: rest, b =>
    if (attemptCells size a).any (fun p => !(b p.1 p.2 == '~')) then
      placeOneShip blocked letter size rest b
    else if (attemptCells size a).any (fun p => blocked.contains (coordFromRC p.1 p.2)) then
      placeOneShip blocked letter size rest b
    else some (writeCells b (attemptCells size a) letter, rest)

/-- The `for ship, size in SHIP_SIZES.items()` loop. -/
def placeLoop (blocked : List String) :
    List (Char × Nat) → List Attempt → Board → Option Board
  | [], _, b => some b
  | (letter, size) :: ships, attempts, b =>
    match placeOneShip blocked letter size attempts b with
    | none => none
    | some (b', rest) => placeLoop blocked ships rest b'

/-- Models `_place_ships_randomly(board, blocked_coords)`: `some` is the mutated
board on termination; `none` means the loop is still rejection-sampling when
the supplied finite list of draws runs out. -/
def placeShipsRandomly (attempts : List Attempt) (b : Board) (blockedCoords : List String) :
    Option Board :=
  placeLoop blockedCoords SHIP_SIZES attempts b

/-- The blocked set collected by `join_game` from the first existing
player's board (row-major, ship cells only). -/
def blockedFor (g : Game) : List String :=
  match g.players with
  | [] => []
  | (_, p) :: _ =>
    (List.range BOARD_SIZE).flatMap (fun r =>
      (List.range BOARD_SIZE).filterMap (fun c =>
        if p.board r c ≠ '~' then some (coordFromRC r c) else none))

/-- The only abort of `join_game`: "Game already has two players". -/
inductive JoinError where
  | gameFull
  deriving DecidableEq

/-- Python dict assignment `game["players"][token] = v`: replaces in place
when the key exists, appends otherwise.  Freshly generated uuid tokens never
collide with an existing key. -/
def dictInsert (ps : List (String × Player)) (k : String) (v : Player) :
    List (String × Player) :=
  if ps.any (fun q => q.1 == k) then ps.map (fun q => if q.1 == k then (k, v) else q)
  else ps ++ [(k, v)]

/-- Models `join_game` on an existing game, with the fresh uuid token and the
placement draws passed explicitly.  The outer `none` means the placement
loop is still running (the request never returns); `some` is the HTTP
response: `GameFull` when two players already exist, otherwise the updated
game with the newcomer's freshly placed board, empty hit/miss lists, and
`turn` set to the newcomer only when it was unset. -/
def joinGame (g : Game) (newToken : String) (attempts : List Attempt) :
    Option (Except JoinError Game) :=
  if 2 ≤ g.players.length then some (.error .gameFull)
  else
    match placeShipsRandomly attempts emptyBoard (blockedFor g) with
    | none => none
    | some board =>
      some (.ok { g with
        players := dictInsert g.players newToken
          { board := board, hits := [], misses := [] }
        turn := match g.turn with | none => some newToken | some t => some t })

/-- Opponent board for the Patrol-Boat scenario: the 2-cell Patrol Boat at
row 0, columns 0 and 1, i.e. coordinates "A1" and "B1". -/
def bobBoardC1 : Board := fun r c => if r = 0 ∧ (c = 0 ∨ c = 1) then 'P' else '~'

/-- Alice's slot in the Patrol-Boat scenario. -/
def aliceSlotC1 : Player := { board := emptyBoard, hits := [], misses := [] }

/-- Bob's slot in the Patrol-Boat scenario: his Patrol Boat already hit once
at "A1". -/
def bobSlotC1 : Player := { board := bobBoardC1, hits := ["A1"], misses := [] }

/-- An in-progress game: alice to move. -/
def gC1 : Game :=
  { id := "game01"
    players := [("alice", aliceSlotC1), ("bob", bobSlotC1)]
    turn := some "alice"
    winner := none }

/-- Opponent board with the full five-ship fleet: ship of size `s` lies
horizontally in its catalog row (A row 0, B row 1, S row 2, D row 3,
P row 4), columns `0..s-1`. -/
def bobBoardC2 : Board := fun r c =>
  if r = 0 ∧ c < 5 then 'A'
  else if r = 1 ∧ c < 4 then 'B'
  else if r = 2 ∧ c < 3 then 'S'
  else if r = 3 ∧ c < 3 then 'D'
  else if r = 4 ∧ c < 2 then 'P'
  else '~'

/-- All 17 coordinates of `bobBoardC2`'s fleet except the last Patrol-Boat
cell "B5". -/
def bobHitsC2 : List String :=
  ["A1", "B1", "C1", "D1", "E1",
   "A2", "B2", "C2", "D2",
   "A3", "B3", "C3",
   "A4", "B4", "C4",
   "A5"]

/-- All 17 fleet coordinates of `bobBoardC2`: the hit list after firing at
"B5". -/
def fullHitsC2 : List String := bobHitsC2 ++ ["B5"]

/-- An in-progress game one shot away from a full sweep: alice to move, every
bob fleet cell except "B5" already hit. -/
def gC2 : Game :=
  { id := "game02"
    players := [("alice", { board := emptyBoard, hits := [], misses := [] }),
                ("bob", { board := bobBoardC2, hits := bobHitsC2, misses := [] })]
    turn := some "alice"
    winner := none }

/-- A game in which only one player has joined so far. -/
def g1P : Game :=
  { id := "game03"
    players := [("carol", { board := bobBoardC1, hits := [], misses := [] })]
    turn := some "carol"
    winner := none }

/-- The opponent slot after the shot is recorded: the hit list grows on a
hit, the miss list on a miss. -/
def opAfterShot (op : Player) (coord : String) (row col : Nat) : Player :=
  if op.board row col != '~' then { op with hits := op.hits ++ [stringUpper coord] }
  else { op with misses := op.misses ++ [stringUpper coord] }

/-- A contiguous straight run of `size` cells anchored at (r0, c0),
horizontal or vertical — the shape every accepted attempt has. -/
def runCells (horiz : Bool) (r0 c0 size : Nat) : List (Nat × Nat) :=
  if horiz then (List.range size).map (fun i => (r0, c0 + i))
  else (List.range size).map (fun i => (r0 + i, c0))

/-- The anchor keeps the whole run inside the board. -/
def anchorOK (horiz : Bool) (r0 c0 size : Nat) : Prop :=
  if horiz then r0 < BOARD_SIZE ∧ c0 + size ≤ BOARD_SIZE
  else r0 + size ≤ BOARD_SIZE ∧ c0 < BOARD_SIZE

/-- First draw stream for termination: one accepted attempt per catalog
ship, rows 0 to 4, all horizontal at column 0. -/
def goodAttempts : List Attempt :=
  [{ horiz := true, rv := 0, cv := 0 }, { horiz := true, rv := 1, cv := 0 },
   { horiz := true, rv := 2, cv := 0 }, { horiz := true, rv := 3, cv := 0 },
   { horiz := true, rv := 4, cv := 0 }]

/-- A nonempty blocked set disjoint from the `goodAttempts` fleet. -/
def demoBlocked : List String := ["A7"]

/-- The board `goodAttempts` places against `demoBlocked`. -/
def goodBoard : Board :=
  (placeShipsRandomly goodAttempts emptyBoard demoBlocked).getD emptyBoard

/-- The board `goodAttempts` places with no blocked set. -/
def goodBoard0 : Board :=
  (placeShipsRandomly goodAttempts emptyBoard []).getD emptyBoard

/-- The first `n` draws of an infinite draw stream. -/
def attemptsUpTo (f : Nat → Attempt) (n : Nat) : List Attempt := (List.range n).map f

/-- The placement loop terminates on draw stream `f` iff some finite prefix
of the stream already carries it to completion. -/
def placementTerminatesOn (f : Nat → Attempt) (blocked : List String) : Prop :=
  ∃ n, (placeShipsRandomly (attemptsUpTo f n) emptyBoard blocked).isSome

/-- The draw every iteration of the adversarial stream produces: horizontal
at row 0, column 0. -/
def constAttempt : Attempt := { horiz := true, rv := 0, cv := 0 }

/-- The terminating draw stream extending `goodAttempts`. -/
def goodDraws : Nat → Attempt := fun i => goodAttempts.getD i constAttempt

/-- The state alice's shot at "B1" produces in the Patrol-Boat scenario. -/
def moveC1Pair : Game × MoveResult :=
  (makeMove gC1 "alice" "B1").toOption.getD
    (gC1, { result := "", hit := false, sunk := none, sunk_name := none })

/-- The game after alice fires at "B1". -/
def gC1After : Game := moveC1Pair.1

/-- The response to alice's shot at "B1". -/
def resC1 : MoveResult := moveC1Pair.2

/-- A freshly created game, before any join. -/
def g0 : Game := { id := "fresh1", players := [], turn := none, winner := none }

/-- C1.  The claim is right and the code is wrong: on the move whose
deduplicated hit count first reaches the Patrol Boat's length (the second
hit, at "B1", with "A1" already hit), `make_move` reports the hit but
returns `sunk = None` and `sunk_name = None`.  The comparison at app.py:289
matches the coordinate string rebuilt by `_coord_from_rc` against the
one-letter ship code, which never succeeds, so no ship is ever reported
sunk on any move. -/
theorem move_sunk_not_reported_bug :
    stateHitCount bobBoardC1 ["A1", "B1"] 'P' = shipSize 'P'
    ∧ (makeMove gC1 "alice" "B1").toOption.map
        (fun x => (x.2.result, x.2.sunk, x.2.sunk_name)) = some ("hit", none, none) :=
  ⟨by decide, by decide⟩

/-- C2.  The claim is right and the code is wrong: after alice's hit at
"B5", every one of bob's five ship types has all of its cells in the
deduplicated hit set, yet the returned game still has `winner = None`.
Win detection at app.py:310 is guarded by the sunk report and reuses the
same broken per-ship count, so the winner is never set (the repository's
integration test asserts that a winner is eventually declared). -/
theorem winner_not_set_bug :
    SHIP_SIZES.all (fun ls => stateHitCount bobBoardC2 fullHitsC2 ls.1 == ls.2) = true
    ∧ (makeMove gC2 "alice" "B5").toOption.map
        (fun x => (x.1.winner, x.2.result)) = some (none, "hit") :=
  ⟨by decide, by decide⟩

/-- C3.  The claim is right and the code is wrong: on a game with exactly
one joined player the state query does not return normally — the opponent
generator `next(t for t in game["players"] if t != token)` at app.py:185
raises an uncaught `StopIteration`, even though the repository's client
polls the state endpoint while waiting for the second player. -/
theorem state_query_one_player_crash :
    getState g1P (some "carol") = Except.error StateError.stopIteration := rfl

/-- On every in-bounds pair, `make_move`'s parser inverts `_coord_from_rc`. -/
lemma parseCoord_coordFromRC :
    ∀ r, r < BOARD_SIZE → ∀ c, c < BOARD_SIZE →
      parseCoord (coordFromRC r c) = some ((r : Int), (c : Int)) := by decide

/-- C8.  Coordinate conversion is a bijection between in-bounds (row, col)
pairs and canonical coordinate text: `make_move`'s parser inverts
`_coord_from_rc` on every in-bounds pair, rebuilding the parsed pair yields
the same text, and (0,0) corresponds exactly to "A1". -/
theorem coord_conversion_bijection :
    (∀ r, r < BOARD_SIZE → ∀ c, c < BOARD_SIZE →
      parseCoord (coordFromRC r c) = some ((r : Int), (c : Int)))
    ∧ (∀ r, r < BOARD_SIZE → ∀ c, c < BOARD_SIZE → ∀ ri ci,
      parseCoord (coordFromRC r c) = some (ri, ci) →
      coordFromRCInt ri ci = coordFromRC r c)
    ∧ coordFromRC 0 0 = "A1" ∧ parseCoord "A1" = some (0, 0) := by
  refine ⟨parseCoord_coordFromRC, ?_, by decide, by decide⟩
  intro r hr c hc ri ci hparse
  rw [parseCoord_coordFromRC r hr c hc] at hparse
  injection hparse with h2
  cases h2
  rfl

/-- Witness for C8 at the concrete in-bounds pair (11, 3). -/
theorem coord_conversion_bijection_witness :
    11 < BOARD_SIZE ∧ parseCoord (coordFromRC 11 3) = some (11, 3) :=
  ⟨by decide, coord_conversion_bijection.1 11 (by decide) 3 (by decide)⟩

/-- Unfolding lemma for association-list lookup on a cons cell. -/
lemma lookup_cons (k a : String) (b : Player) (rest : List (String × Player)) :
    List.lookup k ((a, b) :: rest) = if k == a then some b else List.lookup k rest := by
  cases hk : k == a <;> simp [List.lookup, hk]

/-- A key-value pair in the list makes `lookup` succeed. -/
lemma lookup_isSome_of_mem {ps : List (String × Player)} {k : String} {v : Player}
    (hmem : (k, v) ∈ ps) : (ps.lookup k).isSome := by
  induction ps with
  | nil => cases hmem
  | cons q rest ih =>
    rcases q with ⟨a, b⟩
    rcases List.mem_cons.mp hmem with hq | hmem'
    · cases hq
      simp [lookup_cons]
    · cases hk : k == a
      · simp [lookup_cons, hk, ih hmem']
      · simp [lookup_cons, hk]

/-- Replacing the value stored at one key leaves every other key's lookup
unchanged. -/
lemma lookup_map_replace_ne (ps : List (String × Player)) {k k' : String} (v : Player)
    (h : k ≠ k') :
    (ps.map (fun q => if q.1 == k' then (q.1, v) else q)).lookup k = ps.lookup k := by
  induction ps with
  | nil => rfl
  | cons q rest ih =>
    rcases q with ⟨a, b⟩
    by_cases ha : a = k'
    · have hka : k ≠ a := fun hh => h (hh.trans ha)
      simp only [List.map_cons]
      rw [if_pos (by simpa using ha)]
      rw [lookup_cons, lookup_cons, if_neg (by simpa using hka), if_neg (by simpa using hka)]
      exact ih
    · simp only [List.map_cons]
      rw [if_neg (by simpa using ha)]
      rw [lookup_cons, lookup_cons]
      by_cases hk : k = a
      · rw [if_pos (by simpa using hk), if_pos (by simpa using hk)]
      · rw [if_neg (by simpa using hk), if_neg (by simpa using hk)]
        exact ih

/-- Replacing the value stored at a key rewrites exactly that key's lookup. -/
lemma lookup_map_replace_eq (ps : List (String × Player)) (k' : String) (v : Player) :
    (ps.map (fun q => if q.1 == k' then (q.1, v) else q)).lookup k' =
      (ps.lookup k').map (fun _ => v) := by
  induction ps with
  | nil => rfl
  | cons q rest ih =>
    rcases q with ⟨a, b⟩
    by_cases ha : a = k'
    · simp only [List.map_cons]
      rw [if_pos (by simpa using ha)]
      rw [lookup_cons, lookup_cons, if_pos (by simpa using ha.symm),
        if_pos (by simpa using ha.symm)]
      rfl
    · simp only [List.map_cons]
      rw [if_neg (by simpa using ha)]
      rw [lookup_cons, lookup_cons, if_neg (by simpa using (Ne.symm ha)),
        if_neg (by simpa using (Ne.symm ha))]
      exact ih

/-- The per-entry replacement of the opponent slot keeps every key in
place. -/
lemma map_replace_keys (ps : List (String × Player)) (k' : String) (v : Player) :
    (ps.map (fun q => if q.1 == k' then (q.1, v) else q)).map Prod.fst =
      ps.map Prod.fst := by
  induction ps with
  | nil => rfl
  | cons q rest ih =>
    rcases q with ⟨a, b⟩
    by_cases ha : a = k'
    · simp only [List.map_cons]
      rw [if_pos (by simpa using ha)]
      simpa using ih
    · simp only [List.map_cons]
      rw [if_neg (by simpa using ha)]
      simpa using ih

/-- A found other token is genuinely different from the acting token. -/
lemma firstOtherToken_ne {ps : List (String × Player)} {tok opTok : String}
    (h : firstOtherToken ps tok = some opTok) : opTok ≠ tok := by
  unfold firstOtherToken at h
  cases hf : ps.find? (fun p => p.1 != tok) with
  | none => rw [hf] at h; cases h
  | some q =>
    rw [hf] at h
    injection h with h
    have := List.find?_some hf
    subst h
    simpa using this

/-- In a game with at least two players and duplicate-free keys (Python dict
keys always are), the opponent generator finds a token and its slot. -/
lemma exists_other (ps : List (String × Player)) (tok : String)
    (hnd : (ps.map Prod.fst).Nodup) (hlen : 2 ≤ ps.length) :
    ∃ opTok op, firstOtherToken ps tok = some opTok ∧ opTok ≠ tok ∧
      ps.lookup opTok = some op := by
  match ps, hlen with
  | q1 :: q2 :: rest, _ =>
    rcases q1 with ⟨a1, b1⟩
    rcases q2 with ⟨a2, b2⟩
    have h12 : a1 ≠ a2 := by
      simp only [List.map, List.nodup_cons, List.mem_cons, List.mem_map] at hnd
      exact fun hh => hnd.1 (Or.inl hh)
    by_cases h1 : a1 = tok
    · have hq2 : (a2 != tok) = true := by
        simp only [bne_iff_ne, ne_eq]
        exact fun hh => h12 (h1.trans hh.symm)
      have hq1 : (a1 != tok) = false := by simpa using h1
      refine ⟨a2, b2, ?_, ?_, ?_⟩
      · simp [firstOtherToken, List.find?, hq1, hq2]
      · simpa using hq2
      · simp [lookup_cons, show (a2 == a1) = false by simpa using (Ne.symm h12)]
    · have hq1 : (a1 != tok) = true := by simpa using h1
      refine ⟨a1, b1, ?_, ?_, ?_⟩
      · simp [firstOtherToken, List.find?, hq1]
      · simpa using hq1
      · simp [lookup_cons]

/-- Inversion of a successful `make_move`: every guard of the chain passed
and the outcome is the success path applied to the located opponent and the
parsed in-bounds coordinate. -/
lemma makeMove_ok_inv {g : Game} {token coord : String} {g' : Game} {res : MoveResult}
    (h : makeMove g token coord = .ok (g', res)) :
    token ≠ "" ∧ coord ≠ "" ∧ (g.players.lookup token).isSome ∧ g.turn = some token ∧
    2 ≤ g.players.length ∧
    ∃ opTok op ri ci,
      firstOtherToken g.players token = some opTok ∧
      g.players.lookup opTok = some op ∧
      parseCoord coord = some (ri, ci) ∧
      (0 ≤ ri ∧ ri < (BOARD_SIZE : Int) ∧ 0 ≤ ci ∧ ci < (BOARD_SIZE : Int)) ∧
      (g', res) = moveApply g token coord opTok op ri.toNat ci.toNat := by
  unfold makeMove at h
  split at h
  · cases h
  rename_i h0
  split at h
  · cases h
  rename_i h1
  split at h
  · cases h
  rename_i h2
  split at h
  · cases h
  rename_i h3
  split at h
  · cases h
  rename_i opTok hother
  split at h
  · cases h
  rename_i op hop
  split at h
  · cases h
  rename_i ri ci hpc
  split at h
  · rename_i hb
    injection h with h'
    push_neg at h0
    refine ⟨h0.1, h0.2, by simpa using h1, of_not_not h2, Nat.not_lt.mp h3,
      opTok, op, ri, ci, hother, hop, hpc, hb, h'.symm⟩
  · cases h

/-- C4.  After every successful fire on a two-player game, the turn field
names the non-acting player, whatever the shot's outcome. -/
theorem turn_advances_to_non_acting_player
    (g : Game) (t1 t2 : String) (p1 p2 : Player) (token coord : String)
    (g' : Game) (res : MoveResult)
    (hps : g.players = [(t1, p1), (t2, p2)]) (hne : t1 ≠ t2)
    (h : makeMove g token coord = .ok (g', res)) :
    g'.turn = some (if token = t1 then t2 else t1) := by
  obtain ⟨-, -, hmem, -, -, opTok, op, ri, ci, hother, hop, -, -, heq⟩ := makeMove_ok_inv h
  have hturn : g'.turn = some opTok := by
    have hcong := congrArg (fun x => x.1.turn) heq
    simpa [moveApply] using hcong
  rw [hps] at hmem hother
  by_cases htok : token = t1
  · subst htok
    have hop2 : opTok = t2 := by
      simp [firstOtherToken, List.find?, show (token != token) = false by simp,
        show (t2 != token) = true by simpa using (Ne.symm hne)] at hother
      exact hother.symm
    rw [hturn, hop2, if_pos rfl]
  · have htok2 : token = t2 := by
      by_cases h2 : token = t2
      · exact h2
      · rw [lookup_cons, if_neg (by simpa using htok), lookup_cons,
          if_neg (by simpa using h2)] at hmem
        cases hmem
    subst htok2
    have hop1 : opTok = t1 := by
      simp [firstOtherToken, List.find?,
        show (t1 != token) = true by simpa using (fun hh => htok hh.symm : ¬ t1 = token)] at hother
      exact hother.symm
    rw [hturn, hop1, if_neg htok]

lemma moveApply_fst_id (g : Game) (token coord opTok : String) (op : Player)
    (row col : Nat) : (moveApply g token coord opTok op row col).1.id = g.id := by
  cases hhit : op.board row col != '~' <;> simp [moveApply, hhit]

lemma moveApply_fst_turn (g : Game) (token coord opTok : String) (op : Player)
    (row col : Nat) :
    (moveApply g token coord opTok op row col).1.turn = some opTok := by
  cases hhit : op.board row col != '~' <;> simp [moveApply, hhit]

lemma moveApply_fst_players (g : Game) (token coord opTok : String) (op : Player)
    (row col : Nat) :
    (moveApply g token coord opTok op row col).1.players =
      g.players.map (fun q =>
        if q.1 == opTok then (q.1, opAfterShot op coord row col) else q) := by
  cases hhit : op.board row col != '~' <;> simp [moveApply, opAfterShot, hhit]

lemma moveApply_snd_hit (g : Game) (token coord opTok : String) (op : Player)
    (row col : Nat) :
    (moveApply g token coord opTok op row col).2.hit = (op.board row col != '~') := by
  cases hhit : op.board row col != '~' <;> simp [moveApply, hhit]

/-- C9.  A successful fire changes, besides turn and possibly winner, only
the opponent slot: exactly one of its hit/miss lists grows by the uppercased
fired coordinate; the opponent's board, the acting player's whole slot, the
key set, and the game id are unchanged. -/
theorem fire_frame_effects
    (g : Game) (token coord : String) (g' : Game) (res : MoveResult)
    (h : makeMove g token coord = .ok (g', res)) :
    g'.id = g.id ∧
    g'.players.map Prod.fst = g.players.map Prod.fst ∧
    g'.players.lookup token = g.players.lookup token ∧
    ∃ opTok op op',
      firstOtherToken g.players token = some opTok ∧ opTok ≠ token ∧
      g.players.lookup opTok = some op ∧ g'.players.lookup opTok = some op' ∧
      op'.board = op.board ∧
      ((res.hit = true ∧ op'.hits = op.hits ++ [stringUpper coord] ∧
          op'.misses = op.misses) ∨
       (res.hit = false ∧ op'.misses = op.misses ++ [stringUpper coord] ∧
          op'.hits = op.hits)) := by
  obtain ⟨-, -, hmem, -, -, opTok, op, ri, ci, hother, hop, -, -, heq⟩ := makeMove_ok_inv h
  have hneTok : opTok ≠ token := firstOtherToken_ne hother
  have hg' : g' = (moveApply g token coord opTok op ri.toNat ci.toNat).1 :=
    congrArg Prod.fst heq
  have hres : res = (moveApply g token coord opTok op ri.toNat ci.toNat).2 :=
    congrArg Prod.snd heq
  refine ⟨?_, ?_, ?_, opTok, op, opAfterShot op coord ri.toNat ci.toNat,
    hother, hneTok, hop, ?_, ?_, ?_⟩
  · rw [hg', moveApply_fst_id]
  · rw [hg', moveApply_fst_players]
    exact map_replace_keys g.players opTok _
  · rw [hg', moveApply_fst_players]
    exact lookup_map_replace_ne g.players _ (Ne.symm hneTok)
  · rw [hg', moveApply_fst_players, lookup_map_replace_eq, hop]
    rfl
  · cases hhit : op.board ri.toNat ci.toNat != '~' <;> simp [opAfterShot, hhit]
  · rw [hres, moveApply_snd_hit]
    cases hhit : op.board ri.toNat ci.toNat != '~'
    · right
      refine ⟨rfl, ?_, ?_⟩ <;> simp [opAfterShot, hhit]
    · left
      refine ⟨rfl, ?_, ?_⟩ <;> simp [opAfterShot, hhit]

/-- A fresh key (uuid tokens never collide) makes dict assignment an
append. -/
lemma dictInsert_fresh (ps : List (String × Player)) (k : String) (v : Player)
    (h : ps.lookup k = none) : dictInsert ps k v = ps ++ [(k, v)] := by
  unfold dictInsert
  rw [if_neg ?hn]
  case hn =>
    intro hany
    rcases List.any_eq_true.mp hany with ⟨q, hq, hbeq⟩
    rcases q with ⟨a, b⟩
    have hk : a = k := by simpa using hbeq
    subst hk
    have hsome : (ps.lookup a).isSome := lookup_isSome_of_mem hq
    rw [h] at hsome
    cases hsome

/-- C5.  The guard chain of `fire`: UnknownToken, then NotYourTurn, then
NoOpponent, then InvalidCoordinate, in exactly that order (each earlier
failure wins regardless of later conditions), and every failure leaves the
persisted game unchanged.  Empty token/coordinate strings are rejected by
the marshaling guard before the engine checks, hence the two nonemptiness
hypotheses; the coordinate text is restricted to ASCII because CPython's
int() additionally accepts non-ASCII Unicode decimal digits (see `pyInt`),
while on ASCII text the parse-failure model is exact. -/
theorem fire_error_order_and_no_mutation
    (g : Game) (token coord : String)
    (htok : token ≠ "") (hcoord : coord ≠ "")
    (hascii : ∀ ch ∈ coord.data, ch.toNat < 128)
    (hwf : (g.players.map Prod.fst).Nodup) :
    ((g.players.lookup token).isNone → makeMove g token coord = .error .unknownToken)
    ∧ ((g.players.lookup token).isSome → g.turn ≠ some token →
        makeMove g token coord = .error .notYourTurn)
    ∧ ((g.players.lookup token).isSome → g.turn = some token → g.players.length < 2 →
        makeMove g token coord = .error .noOpponent)
    ∧ ((g.players.lookup token).isSome → g.turn = some token → 2 ≤ g.players.length →
        (parseCoord coord = none ∨
          ∃ ri ci, parseCoord coord = some (ri, ci) ∧
            ¬(0 ≤ ri ∧ ri < (BOARD_SIZE : Int) ∧ 0 ≤ ci ∧ ci < (BOARD_SIZE : Int))) →
        makeMove g token coord = .error .invalidCoordinate)
    ∧ (∀ e, makeMove g token coord = .error e → movePersisted g token coord = g) := by
  have h0 : ¬(token = "" ∨ coord = "") := by
    intro hh
    rcases hh with hh | hh
    · exact htok hh
    · exact hcoord hh
  refine ⟨?_, ?_, ?_, ?_, ?_⟩
  · intro h1
    unfold makeMove
    rw [if_neg h0, if_pos h1]
  · intro h1 h2
    have h1' : ¬(g.players.lookup token).isNone = true := by
      intro hn
      rw [Option.isNone_iff_eq_none] at hn
      rw [hn] at h1
      cases h1
    unfold makeMove
    rw [if_neg h0, if_neg h1', if_pos h2]
  · intro h1 h2 h3
    have h1' : ¬(g.players.lookup token).isNone = true := by
      intro hn
      rw [Option.isNone_iff_eq_none] at hn
      rw [hn] at h1
      cases h1
    unfold makeMove
    rw [if_neg h0, if_neg h1', if_neg (fun hh => hh h2), if_pos h3]
  · intro h1 h2 h3 hbad
    have h1' : ¬(g.players.lookup token).isNone = true := by
      intro hn
      rw [Option.isNone_iff_eq_none] at hn
      rw [hn] at h1
      cases h1
    obtain ⟨opTok, op, hother, hne2, hop⟩ := exists_other g.players token hwf h3
    unfold makeMove
    rw [if_neg h0, if_neg h1', if_neg (fun hh => hh h2), if_neg (Nat.not_lt.mpr h3)]
    split
    · rename_i heq
      rw [heq] at hother
      cases hother
    · rename_i opTok' heq
      rw [heq] at hother
      injection hother with hh
      subst hh
      split
      · rename_i heq2
        rw [heq2] at hop
        cases hop
      · rename_i op' heq2
        rw [heq2] at hop
        injection hop with hh2
        subst hh2
        rcases hbad with hnone | ⟨ri, ci, hpc, hnb⟩
        · rw [hnone]
        · rw [hpc]
          exact if_neg hnb
  · intro e he
    unfold movePersisted
    rw [he]

/-- C6.  `join` fails with GameFull exactly when two players already exist;
otherwise (once the placement loop terminates) it succeeds, appending the
newcomer's slot with the freshly placed board and empty hit/miss lists, and
sets turn to the newcomer precisely when no turn was set (the first join),
leaving it unchanged on the second join. -/
theorem join_capacity_and_turn (g : Game) (tok : String) (attempts : List Attempt) :
    (2 ≤ g.players.length → joinGame g tok attempts = some (.error .gameFull))
    ∧ (∀ board, g.players.length < 2 → g.players.lookup tok = none →
        placeShipsRandomly attempts emptyBoard (blockedFor g) = some board →
        joinGame g tok attempts = some (.ok
          { id := g.id
            players := g.players ++ [(tok, { board := board, hits := [], misses := [] })]
            turn := some (g.turn.getD tok)
            winner := g.winner })) := by
  constructor
  · intro hlen
    unfold joinGame
    rw [if_pos hlen]
  · intro board hlen hfresh hplace
    unfold joinGame
    rw [if_neg (Nat.not_le.mpr hlen)]
    split
    · rename_i heq
      rw [heq] at hplace
      cases hplace
    · rename_i b' heq
      rw [heq] at hplace
      injection hplace with hb
      subst hb
      have hfreshEq := dictInsert_fresh g.players tok
        { board := b', hits := [], misses := [] } hfresh
      cases ht : g.turn with
      | none => simp [hfreshEq, ht]
      | some t => simp [hfreshEq, ht]

/-- Writing a set of cells sets exactly those cells. -/
lemma writeCells_apply (cells : List (Nat × Nat)) (b : Board) (letter : Char)
    (r c : Nat) :
    writeCells b cells letter r c = if (r, c) ∈ cells then letter else b r c := by
  induction cells generalizing b with
  | nil => simp [writeCells]
  | cons p cs ih =>
    have hstep : writeCells b (p :: cs) letter =
        writeCells (setCell b p.1 p.2 letter) cs letter := rfl
    rw [hstep, ih]
    by_cases hm : (r, c) ∈ cs
    · simp [hm]
    · rw [if_neg hm]
      unfold setCell
      by_cases hp : (r, c) = p
      · rw [if_pos (by rw [Prod.ext_iff] at hp; exact hp),
          if_pos (by simp [List.mem_cons, hp])]
      · rw [if_neg (by rw [Prod.ext_iff] at hp; exact hp),
          if_neg (by simp [List.mem_cons, hp, hm])]

/-- Every attempt's candidate cells form an in-bounds straight run. -/
lemma attemptCells_run (size : Nat) (a : Attempt) (h1 : 1 ≤ size)
    (h2 : size ≤ BOARD_SIZE) :
    ∃ horiz r0 c0, anchorOK horiz r0 c0 size ∧
      attemptCells size a = runCells horiz r0 c0 size := by
  have hpos : 0 < BOARD_SIZE - size + 1 := by omega
  have hB : 0 < BOARD_SIZE := by omega
  cases ha : a.horiz
  · refine ⟨false, a.rv % (BOARD_SIZE - size + 1), a.cv % BOARD_SIZE, ?_, ?_⟩
    · have hr := Nat.mod_lt a.rv hpos
      have hc := Nat.mod_lt a.cv hB
      unfold anchorOK
      simp only [if_neg Bool.false_ne_true]
      omega
    · unfold attemptCells runCells
      rw [ha]
      simp
  · refine ⟨true, a.rv % BOARD_SIZE, a.cv % (BOARD_SIZE - size + 1), ?_, ?_⟩
    · have hr := Nat.mod_lt a.rv hB
      have hc : a.cv % (BOARD_SIZE - size + 1) ≤ BOARD_SIZE - size :=
        Nat.lt_succ_iff.mp (Nat.mod_lt a.cv hpos)
      unfold anchorOK
      simp only [if_pos rfl]
      refine ⟨hr, ?_⟩
      calc a.cv % (BOARD_SIZE - size + 1) + size ≤ (BOARD_SIZE - size) + size :=
            Nat.add_le_add_right hc size
        _ = BOARD_SIZE := Nat.sub_add_cancel h2
    · unfold attemptCells runCells
      rw [ha]
      simp

/-- Inversion of a successful single-ship placement: some attempt was
accepted, its cells were all water and unblocked, and the result board is
the input board with the ship letter written on exactly those cells. -/
lemma placeOneShip_spec (blocked : List String) (letter : Char) (size : Nat) :
    ∀ (attempts : List Attempt) (b b' : Board) (rest : List Attempt),
      placeOneShip blocked letter size attempts b = some (b', rest) →
      ∃ a : Attempt,
        (∀ p ∈ attemptCells size a, b p.1 p.2 = '~') ∧
        (∀ p ∈ attemptCells size a, coordFromRC p.1 p.2 ∉ blocked) ∧
        b' = writeCells b (attemptCells size a) letter := by
  intro attempts
  induction attempts with
  | nil => intro b b' rest h; cases h
  | cons a as ih =>
    intro b b' rest h
    unfold placeOneShip at h
    split at h
    · exact ih b b' rest h
    split at h
    · exact ih b b' rest h
    rename_i hocc hblk
    injection h with h'
    refine ⟨a, ?_, ?_, ?_⟩
    · intro p hp
      have := fun hc => hocc (List.any_eq_true.mpr ⟨p, hp, by simpa using hc⟩)
      by_contra hc
      exact this hc
    · intro p hp hmem
      exact hblk (List.any_eq_true.mpr ⟨p, hp, by simpa using hmem⟩)
    · exact (congrArg Prod.fst h').symm

/-- Invariant of the ship-placement loop: whenever it terminates, every ship
of the remaining catalog occupies exactly an in-bounds straight unblocked
run of its size, and every cell the loop touched was water before. -/
lemma placeLoop_spec (blocked : List String) :
    ∀ (ships : List (Char × Nat)) (attempts : List Attempt) (b bf : Board),
      placeLoop blocked ships attempts b = some bf →
      (ships.map Prod.fst).Nodup →
      (∀ ls ∈ ships, ls.1 ≠ '~') →
      (∀ ls ∈ ships, 1 ≤ ls.2 ∧ ls.2 ≤ BOARD_SIZE) →
      (∀ ls ∈ ships, ∀ r c, b r c ≠ ls.1) →
      (∀ ls ∈ ships, ∃ horiz r0 c0, anchorOK horiz r0 c0 ls.2 ∧
          (∀ r c, bf r c = ls.1 ↔ (r, c) ∈ runCells horiz r0 c0 ls.2) ∧
          (∀ p ∈ runCells horiz r0 c0 ls.2, coordFromRC p.1 p.2 ∉ blocked))
      ∧ (∀ r c, bf r c = b r c ∨ (b r c = '~' ∧ ∃ ls ∈ ships, bf r c = ls.1)) := by
  intro ships
  induction ships with
  | nil =>
    intro attempts b bf h hnd hne hsz hfresh
    unfold placeLoop at h
    injection h with h'
    subst h'
    exact ⟨fun ls hls => absurd hls (List.not_mem_nil ls), fun r c => Or.inl rfl⟩
  | cons hd rest ih =>
    rcases hd with ⟨l, s⟩
    intro attempts b bf h hnd hne hsz hfresh
    unfold placeLoop at h
    split at h
    · cases h
    rename_i b1 rest1 hp
    obtain ⟨a, hfree, hblock, hb1⟩ := placeOneShip_spec blocked l s attempts b b1 rest1 hp
    have hb1get : ∀ r c, b1 r c = if (r, c) ∈ attemptCells s a then l else b r c := by
      intro r c
      rw [hb1, writeCells_apply]
    simp only [List.map_cons, List.nodup_cons] at hnd
    have hlrest : l ∉ rest.map Prod.fst := hnd.1
    have hl_ne : l ≠ '~' := hne (l, s) (List.mem_cons_self _ _)
    have hs_sz := hsz (l, s) (List.mem_cons_self _ _)
    have hfresh1 : ∀ ls ∈ rest, ∀ r c, b1 r c ≠ ls.1 := by
      intro ls hls r c
      rw [hb1get]
      by_cases hm : (r, c) ∈ attemptCells s a
      · rw [if_pos hm]
        intro hll
        exact hlrest (hll ▸ List.mem_map_of_mem Prod.fst hls)
      · rw [if_neg hm]
        exact hfresh ls (List.mem_cons_of_mem _ hls) r c
    obtain ⟨ihruns, ihmono⟩ := ih rest1 b1 bf h hnd.2
      (fun ls hls => hne ls (List.mem_cons_of_mem _ hls))
      (fun ls hls => hsz ls (List.mem_cons_of_mem _ hls)) hfresh1
    obtain ⟨horiz, r0, c0, hanchor, hcells⟩ := attemptCells_run s a hs_sz.1 hs_sz.2
    constructor
    · intro ls hls
      rcases List.mem_cons.mp hls with hq | hls'
      · subst hq
        refine ⟨horiz, r0, c0, hanchor, ?_, ?_⟩
        · intro r c
          constructor
          · intro hbf
            rw [← hcells]
            rcases ihmono r c with hsame | ⟨hw, ls', hls', hbf'⟩
            · rw [hsame, hb1get] at hbf
              by_cases hm : (r, c) ∈ attemptCells s a
              · exact hm
              · rw [if_neg hm] at hbf
                exact absurd hbf (hfresh (l, s) (List.mem_cons_self _ _) r c)
            · exfalso
              rw [hbf'] at hbf
              have hlm : l ∈ rest.map Prod.fst := by
                rw [show l = ls'.1 from hbf.symm]
                exact List.mem_map_of_mem Prod.fst hls'
              exact hlrest hlm
          · intro hm
            rw [← hcells] at hm
            have hb1l : b1 r c = l := by rw [hb1get, if_pos hm]
            rcases ihmono r c with hsame | ⟨hw, _⟩
            · rw [hsame, hb1l]
            · exfalso
              rw [hb1l] at hw
              exact hl_ne hw
        · intro p hpmem
          rw [← hcells] at hpmem
          exact hblock p hpmem
      · exact ihruns ls hls'
    · intro r c
      rcases ihmono r c with hsame | ⟨hw, ls', hls', hbf'⟩
      · rw [hsame, hb1get]
        by_cases hm : (r, c) ∈ attemptCells s a
        · rw [if_pos hm]
          exact Or.inr ⟨hfree (r, c) hm, (l, s), List.mem_cons_self _ _, rfl⟩
        · rw [if_neg hm]
          exact Or.inl rfl
      · have hb1w : b1 r c = '~' := hw
        rw [hb1get] at hb1w
        by_cases hm : (r, c) ∈ attemptCells s a
        · rw [if_pos hm] at hb1w
          exact absurd hb1w hl_ne
        · rw [if_neg hm] at hb1w
          exact Or.inr ⟨hb1w, ls', List.mem_cons_of_mem _ hls', hbf'⟩

/-- C7.  Every board produced by a terminating run of fleet placement on an
empty board holds exactly the five catalog ships: each letter occupies
exactly one in-bounds contiguous straight run of its fixed size avoiding the
blocked set, no other cell is occupied (so no cell holds two ships), and no
occupied cell's coordinate lies in the blocked set. -/
theorem placement_produces_valid_fleet
    (attempts : List Attempt) (blocked : List String) (bf : Board)
    (h : placeShipsRandomly attempts emptyBoard blocked = some bf) :
    (∀ ls ∈ SHIP_SIZES, ∃ horiz r0 c0, anchorOK horiz r0 c0 ls.2 ∧
        (∀ r c, bf r c = ls.1 ↔ (r, c) ∈ runCells horiz r0 c0 ls.2) ∧
        (∀ p ∈ runCells horiz r0 c0 ls.2, coordFromRC p.1 p.2 ∉ blocked))
    ∧ (∀ r c, bf r c ≠ '~' → ∃ ls ∈ SHIP_SIZES, bf r c = ls.1)
    ∧ (∀ r c, bf r c ≠ '~' → coordFromRC r c ∉ blocked)
    ∧ (∀ ls1 ∈ SHIP_SIZES, ∀ ls2 ∈ SHIP_SIZES, ls1.1 ≠ ls2.1 →
        ∀ r c, ¬(bf r c = ls1.1 ∧ bf r c = ls2.1)) := by
  have hgood : ∀ ls ∈ SHIP_SIZES, ls.1 ≠ '~' := by decide
  obtain ⟨hruns, hmono⟩ := placeLoop_spec blocked SHIP_SIZES attempts emptyBoard bf h
    (by decide) hgood (by decide) (fun ls hls r c => Ne.symm (hgood ls hls))
  refine ⟨hruns, ?_, ?_, ?_⟩
  · intro r c hocc
    rcases hmono r c with hsame | ⟨hw, ls, hls, hbf⟩
    · exact absurd hsame hocc
    · exact ⟨ls, hls, hbf⟩
  · intro r c hocc
    rcases hmono r c with hsame | ⟨hw, ls, hls, hbf⟩
    · exact absurd hsame hocc
    · obtain ⟨horiz, r0, c0, hanchor, hiff, hblk⟩ := hruns ls hls
      exact hblk (r, c) ((hiff r c).mp hbf)
  · rintro ls1 hls1 ls2 hls2 hne r c ⟨h1, h2⟩
    exact hne ((h1.symm).trans h2)

lemma goodPlacement_eq :
    placeShipsRandomly goodAttempts emptyBoard demoBlocked = some goodBoard := rfl

lemma goodPlacement0_eq :
    placeShipsRandomly goodAttempts emptyBoard [] = some goodBoard0 := rfl

/-- Witness for C7: a concrete terminating placement against a nonempty
blocked set, whose occupied cells avoid it. -/
theorem placement_valid_witness :
    placeShipsRandomly goodAttempts emptyBoard demoBlocked = some goodBoard ∧
    (∀ r c, goodBoard r c ≠ '~' → coordFromRC r c ∉ demoBlocked) :=
  ⟨goodPlacement_eq,
   (placement_produces_valid_fleet goodAttempts demoBlocked goodBoard
      goodPlacement_eq).2.2.1⟩

lemma placeLoop_cons_eq (blocked : List String) (l : Char) (s : Nat)
    (ships : List (Char × Nat)) (attempts : List Attempt) (b b1 : Board)
    (rest1 : List Attempt)
    (hp : placeOneShip blocked l s attempts b = some (b1, rest1)) :
    placeLoop blocked ((l, s) :: ships) attempts b =
      placeLoop blocked ships rest1 b1 := by
  show (match placeOneShip blocked l s attempts b with
        | none => none
        | some (b', rest) => placeLoop blocked ships rest b') =
      placeLoop blocked ships rest1 b1
  rw [hp]

lemma placeLoop_cons_none (blocked : List String) (l : Char) (s : Nat)
    (ships : List (Char × Nat)) (attempts : List Attempt) (b : Board)
    (hp : placeOneShip blocked l s attempts b = none) :
    placeLoop blocked ((l, s) :: ships) attempts b = none := by
  show (match placeOneShip blocked l s attempts b with
        | none => none
        | some (b', rest) => placeLoop blocked ships rest b') = none
  rw [hp]

/-- Against a board whose (0,0) cell is occupied, the constant draw keeps
proposing an overlapping Battleship placement, so the draws run out. -/
lemma placeOneShip_const_stuck (b : Board) (hb : b 0 0 ≠ '~') :
    ∀ m, placeOneShip [] 'B' 4 (List.replicate m constAttempt) b = none := by
  intro m
  induction m with
  | zero => rfl
  | succ k ih =>
    rw [List.replicate_succ]
    unfold placeOneShip
    rw [if_pos ?hc]
    · exact ih
    case hc =>
      refine List.any_eq_true.mpr ⟨(0, 0), ?_, ?_⟩
      · rw [show attemptCells 4 constAttempt = [(0, 0), (0, 1), (0, 2), (0, 3)] from rfl]
        exact List.mem_cons_self _ _
      · simpa using hb

/-- Under the constant adversarial draw stream, the Aircraft Carrier is
placed on the first draw and the Battleship then never fits: no finite
number of draws completes the placement. -/
lemma placeShips_const_none :
    ∀ n, placeShipsRandomly (List.replicate n constAttempt) emptyBoard [] = none := by
  intro n
  cases n with
  | zero => rfl
  | succ m =>
    show placeLoop [] SHIP_SIZES (List.replicate (m + 1) constAttempt) emptyBoard = none
    rw [List.replicate_succ,
      show SHIP_SIZES = ('A', 5) :: [('B', 4), ('S', 3), ('D', 3), ('P', 2)] from rfl]
    rw [placeLoop_cons_eq [] 'A' 5 _ _ _
      (writeCells emptyBoard (attemptCells 5 constAttempt) 'A')
      (List.replicate m constAttempt) ?hfirst]
    case hfirst =>
      unfold placeOneShip
      rw [if_neg (by decide), if_neg (by decide)]
    rw [placeLoop_cons_none [] 'B' 4 _ _ _
      (placeOneShip_const_stuck _ (by decide) m)]

/-- C10 counterexample: the rejection-sampling loop does not terminate for
every draw sequence — under the constant stream it never completes. -/
theorem placement_nontermination_cex :
    ¬ placementTerminatesOn (fun _ => constAttempt) [] := by
  rintro ⟨n, hn⟩
  have hrep : attemptsUpTo (fun _ => constAttempt) n = List.replicate n constAttempt := by
    simp [attemptsUpTo]
  rw [hrep, placeShips_const_none] at hn
  cases hn

/-- C10 amended: fleet placement terminates on some draw sequences (any
whose proposals avoid collisions) but not on every draw sequence. -/
theorem placement_termination_amended :
    placementTerminatesOn goodDraws [] ∧
    ¬ placementTerminatesOn (fun _ => constAttempt) [] := by
  constructor
  · refine ⟨5, ?_⟩
    rw [show attemptsUpTo goodDraws 5 = goodAttempts from rfl, goodPlacement0_eq]
    rfl
  · rintro ⟨n, hn⟩
    have hrep : attemptsUpTo (fun _ => constAttempt) n = List.replicate n constAttempt := by
      simp [attemptsUpTo]
    rw [hrep, placeShips_const_none] at hn
    cases hn

lemma moveC1_ok : makeMove gC1 "alice" "B1" = .ok (gC1After, resC1) := rfl

/-- Witness for C4 at the Patrol-Boat game: after alice's move the turn is
bob's. -/
theorem turn_advances_witness :
    gC1.players = [("alice", aliceSlotC1), ("bob", bobSlotC1)] ∧
    gC1After.turn = some "bob" := by
  refine ⟨rfl, ?_⟩
  have h := turn_advances_to_non_acting_player gC1 "alice" "bob" aliceSlotC1 bobSlotC1
    "alice" "B1" gC1After resC1 rfl (by decide) moveC1_ok
  simpa using h

/-- Witness for C9 at the Patrol-Boat game: id and alice's own slot are
untouched by alice's shot. -/
theorem fire_frame_witness :
    makeMove gC1 "alice" "B1" = Except.ok (gC1After, resC1) ∧
    gC1After.id = gC1.id ∧
    gC1After.players.lookup "alice" = gC1.players.lookup "alice" :=
  ⟨moveC1_ok, (fire_frame_effects gC1 "alice" "B1" gC1After resC1 moveC1_ok).1,
   (fire_frame_effects gC1 "alice" "B1" gC1After resC1 moveC1_ok).2.2.1⟩

/-- Witness for C5: the unknown token "zed" is rejected with UnknownToken on
the Patrol-Boat game. -/
theorem fire_error_order_witness :
    ("zed" : String) ≠ "" ∧ ("A1" : String) ≠ "" ∧
    (∀ ch ∈ ("A1" : String).data, ch.toNat < 128) ∧
    (gC1.players.map Prod.fst).Nodup ∧
    makeMove gC1 "zed" "A1" = .error .unknownToken :=
  ⟨by decide, by decide, by decide, by decide,
   (fire_error_order_and_no_mutation gC1 "zed" "A1" (by decide) (by decide)
      (by decide) (by decide)).1 (by decide)⟩

/-- Witness for C6: a third join on a full game fails with GameFull, and a
first join on an empty game succeeds, placing a fleet and taking the
turn. -/
theorem join_capacity_witness :
    2 ≤ gC1.players.length ∧ joinGame gC1 "zed" [] = some (.error .gameFull) ∧
    g0.players.length < 2 ∧
    joinGame g0 "p1" goodAttempts = some (.ok
      { id := "fresh1"
        players := [("p1", { board := goodBoard0, hits := [], misses := [] })]
        turn := some "p1"
        winner := none }) := by
  refine ⟨by decide, ?_, by decide, ?_⟩
  · exact (join_capacity_and_turn gC1 "zed" []).1 (by decide)
  · exact (join_capacity_and_turn g0 "p1" goodAttempts).2 goodBoard0 (by decide) rfl
      goodPlacement0_eq
